import Mathlib

/-!
Verification development for the OpenFero remediation dispatcher.

The Go sources are embedded shallowly: pure functions become Lean
functions, mutation becomes explicit state passing, `time.Now()` and
other environment reads become explicit parameters, and machine
integers become `Nat`/`Int` with explicit reductions modulo powers of
two where overflow matters.
-/

namespace OpenFero

/-! ## String helpers (Go standard library fragments) -/

/-- Go `strings.ToLower` restricted to the per-character case mapping
(`Char.toLower` agrees with Go on ASCII, which is all the repository
ever stores in the fields being lowered). -/
def lower (s : String) : String :=
  String.mk (s.data.map Char.toLower)

/-- Substring test on character lists: `charsContain hay sub` is true
iff `sub` occurs contiguously inside `hay`.  Models Go
`strings.Contains hay sub`. -/
def charsContain : List Char → List Char → Bool
  | hay, sub =>
    sub.isPrefixOf hay ||
      (match hay with
       | [] => false
       | _ :: t => charsContain t sub)

/-- Go `strings.Contains`. -/
def strContains (hay sub : String) : Bool :=
  charsContain hay.data sub.data

/-- Go map lookup (`m[k]` with the `, ok` form): association-list
lookup returning the first binding of `k`.  A Go map has at most one
binding per key, so first-match lookup is faithful. -/
def alookup (k : String) : List (String × String) → Option String
  | [] => none
  | (k', v) :: rest => if k' = k then some v else alookup k rest

/-- Go map indexing without the `, ok` form: missing keys give the
zero value `""`. -/
def alookupD (k : String) (l : List (String × String)) : String :=
  (alookup k l).getD ""

/-- Go map assignment `m[k] = v`: replace any binding of `k`, keeping
lookups of every other key unchanged (binding order is irrelevant to
map semantics, so the new binding is put in front). -/
def mapSet (l : List (String × String)) (k v : String) : List (String × String) :=
  (k, v) :: l.filter (fun kv => !(kv.1 = k))

/-! ## `pkg/utils/utils.go` -/

/-- UTF-8 encoding of one character, as byte values (Go strings are
UTF-8 byte sequences and `hash.Write([]byte(s))` consumes those
bytes). -/
def utf8Bytes (c : Char) : List Nat :=
  let v := c.toNat
  if v < 0x80 then [v]
  else if v < 0x800 then
    [0xC0 ||| (v >>> 6), 0x80 ||| (v &&& 0x3F)]
  else if v < 0x10000 then
    [0xE0 ||| (v >>> 12), 0x80 ||| ((v >>> 6) &&& 0x3F), 0x80 ||| (v &&& 0x3F)]
  else
    [0xF0 ||| (v >>> 18), 0x80 ||| ((v >>> 12) &&& 0x3F),
     0x80 ||| ((v >>> 6) &&& 0x3F), 0x80 ||| (v &&& 0x3F)]

/-- The UTF-8 bytes of a string. -/
def strBytes (s : String) : List Nat :=
  (s.data.map utf8Bytes).foldr (· ++ ·) []

/-- FNV-1a 64-bit hash (`hash/fnv`, `fnv.New64a` + `Write` + `Sum64`):
start from the offset basis, and for each byte xor it in and multiply
by the FNV prime, all modulo `2^64`. -/
def fnv1a64 (bytes : List Nat) : Nat :=
  bytes.foldl (fun h b => ((h ^^^ b) * 1099511628211) % 2 ^ 64) 14695981039346656037

/-- One digit of `strconv.FormatUint` in base 36: `0`-`9` then
`a`-`z`. -/
def base36digit (n : Nat) : Char :=
  if n < 10 then Char.ofNat (48 + n) else Char.ofNat (87 + n)

/-- `strconv.FormatUint hash 36`: most-significant digit first. -/
def toBase36 (n : Nat) : List Char :=
  if _h : n < 36 then [base36digit n]
  else toBase36 (n / 36) ++ [base36digit (n % 36)]
  termination_by n
  decreasing_by
    exact Nat.div_lt_self (by omega) (by omega)

/-- `utils.HashGroupKey`: empty input maps to empty output; otherwise
FNV-1a the UTF-8 bytes, render in base 36 behind a leading `g`
(labels must start with a letter), and truncate to 63 bytes.  All
characters produced are ASCII, so Go byte slicing `hashStr[:63]` is
character truncation. -/
def HashGroupKey (groupKey : String) : String :=
  if groupKey = "" then ""
  else
    let hash := fnv1a64 (strBytes groupKey)
    let hashChars := 'g' :: toBase36 hash
    String.mk (if hashChars.length > 63 then hashChars.take 63 else hashChars)

/-- `utils.SanitizeInput`: delete every `\n` and `\r` (Go does two
`strings.ReplaceAll` passes with empty replacement, which for
single-character patterns is exactly character filtering). -/
def SanitizeInput (s : String) : String :=
  String.mk (s.data.filter (fun c => !(c = '\n') && !(c = '\r')))

/-! ## `pkg/alertstore/alertstore.go` — the data model -/

/-- `alertstore.Alert`: labels and annotations are Go string maps,
modelled as association lists (lookup via `alookup`). -/
structure Alert where
  labels : List (String × String)
  annotations : List (String × String)
  startsAt : String
  endsAt : String
deriving DecidableEq, Repr

/-- `alertstore.JobInfo`. -/
structure JobInfo where
  configMapName : String
  jobName : String
  image : String
deriving DecidableEq, Repr

/-- `alertstore.AlertEntry` (the memberlist package has an identical
private `alertEntry`).  `time.Time` is modelled as a `Nat` tick:
`Equal` becomes `=` and `After` becomes `>`. -/
structure AlertEntry where
  alert : Alert
  status : String
  timestamp : Nat
  jobInfo : Option JobInfo
deriving DecidableEq, Repr

/-- One `SaveAlert`/`SaveAlertWithJobInfo` call: the arguments plus
the `time.Now()` value observed inside the call. -/
structure SaveReq where
  alert : Alert
  status : String
  now : Nat
  jobInfo : Option JobInfo
deriving DecidableEq, Repr

/-- The `AlertEntry` a save request constructs. -/
def SaveReq.entry (r : SaveReq) : AlertEntry :=
  ⟨r.alert, r.status, r.now, r.jobInfo⟩

/-! ## `pkg/alertstore/memory` — the local bounded store -/

/-- `memory.MemoryStore`: the `alerts` slice and the configured
`maxSize`.  The mutex only serialises access and has no effect on the
sequential semantics modelled here. -/
structure MemoryStore where
  alerts : List AlertEntry
  maxSize : Nat
deriving DecidableEq, Repr

/-- `memory.NewMemoryStore`. -/
def NewMemoryStore (maxSize : Nat) : MemoryStore :=
  ⟨[], maxSize⟩

/-- The insertion step shared by the memory-store save paths
(`memory.go` lines 48-54): append while below capacity, else shift
left by one (dropping index 0) and overwrite the last slot.  When
`maxSize = 0` the Go code would index `s.alerts[-1]` and crash; every
claim below assumes a positive capacity. -/
def MemoryStore.insertEntry (s : MemoryStore) (entry : AlertEntry) : MemoryStore :=
  if s.alerts.length < s.maxSize then { s with alerts := s.alerts ++ [entry] }
  else { s with alerts := s.alerts.tail ++ [entry] }

/-- `MemoryStore.SaveAlert`: builds an entry with no job info at the
current time and inserts it.  Always returns `nil` error in Go, so the
error is omitted. -/
def MemoryStore.SaveAlert (s : MemoryStore) (alert : Alert) (status : String)
    (now : Nat) : MemoryStore :=
  s.insertEntry ⟨alert, status, now, none⟩

/-- `MemoryStore.SaveAlertWithJobInfo`, embedded from the newer
`memory.go` revision appended to the staged
`pkg/alertstore/memory/memory_search_test.go` file (lines 131-152):
build the entry carrying the optional job info at the current time
and run the same append-or-evict insertion step as `SaveAlert`
(`len < maxSize` append, else shift left and overwrite the last
slot). -/
def MemoryStore.SaveAlertWithJobInfo (s : MemoryStore) (alert : Alert) (status : String)
    (now : Nat) (jobInfo : Option JobInfo) : MemoryStore :=
  s.insertEntry ⟨alert, status, now, jobInfo⟩

/-- `memory.alertMatchesQuery` (`memory.go` lines 84-114), verbatim
structure: the query is lowered; the alertname label and every
label/annotation value are lowered before the substring test, but the
status is compared without lowering. -/
def memAlertMatchesQuery (entry : AlertEntry) (query : String) : Bool :=
  let q := lower query
  (match alookup "alertname" entry.alert.labels with
   | some alertname => strContains (lower alertname) q
   | none => false) ||
  strContains entry.status q ||
  entry.alert.labels.any (fun kv => strContains (lower kv.2) q) ||
  entry.alert.annotations.any (fun kv => strContains (lower kv.2) q)

/-- `MemoryStore.GetAlerts` (`memory.go` lines 60-81).  `limit` is a
Go `int`, so it is an `Int` here.  With an empty query the code
returns the suffix `s.alerts[len-limit:]` when `0 < limit < len`,
otherwise the whole slice; with a query it returns every matching
entry (the limit is not consulted on that path). -/
def MemoryStore.GetAlerts (s : MemoryStore) (query : String) (limit : Int) :
    List AlertEntry :=
  if query = "" then
    if 0 < limit ∧ limit < (s.alerts.length : Int) then
      s.alerts.drop (s.alerts.length - limit.toNat)
    else s.alerts
  else
    s.alerts.filter (fun e => memAlertMatchesQuery e query)

/-! ## `pkg/alertstore/memberlist` — the replicated store -/

/-- `memberlist.MemberlistStore`: the record list (newest first) and
the capacity `limit`.  The gossip engine, broadcast queue and mutex
are external collaborators or synchronisation and do not enter the
sequential state. -/
structure MemberlistStore where
  alerts : List AlertEntry
  limit : Nat
deriving DecidableEq, Repr

/-- `memberlist.NewMemberlistStore`: a non-positive limit defaults to
100 (the Go parameter is an `int`). -/
def NewMemberlistStore (limit : Int) : MemberlistStore :=
  ⟨[], if limit ≤ 0 then 100 else limit.toNat⟩

/-- The prepend-and-trim step shared by `SaveAlertWithJobInfo` and
`NotifyMsg`: put the entry at the front, and if the list now exceeds
the limit keep only the first `limit` entries. -/
def MemberlistStore.insertFront (s : MemberlistStore) (entry : AlertEntry) :
    MemberlistStore :=
  let alerts := entry :: s.alerts
  { s with alerts := if alerts.length > s.limit then alerts.take s.limit else alerts }

/-- `MemberlistStore.SaveAlertWithJobInfo` (`memberlist` lines
145-193): build the entry at the current time, prepend, trim.  The
broadcast of the marshalled entry is an external side effect;
marshalling of these records cannot fail, so the error return is
omitted. -/
def MemberlistStore.SaveAlertWithJobInfo (s : MemberlistStore) (alert : Alert)
    (status : String) (now : Nat) (jobInfo : Option JobInfo) : MemberlistStore :=
  s.insertFront ⟨alert, status, now, jobInfo⟩

/-- `MemberlistStore.SaveAlert` delegates to `SaveAlertWithJobInfo`
with a `nil` job info. -/
def MemberlistStore.SaveAlert (s : MemberlistStore) (alert : Alert) (status : String)
    (now : Nat) : MemberlistStore :=
  s.SaveAlertWithJobInfo alert status now none

/-- `MemberlistStore.alertMatchesQuery` (lines 261-298): status,
alertname label, label values, annotation values and the three
job-info fields, all lowered; the query was lowered by the caller. -/
def mlAlertMatchesQuery (entry : AlertEntry) (query : String) : Bool :=
  strContains (lower entry.status) query ||
  (match alookup "alertname" entry.alert.labels with
   | some alertname => strContains (lower alertname) query
   | none => false) ||
  entry.alert.labels.any (fun kv => strContains (lower kv.2) query) ||
  entry.alert.annotations.any (fun kv => strContains (lower kv.2) query) ||
  (match entry.jobInfo with
   | some ji =>
     strContains (lower ji.configMapName) query ||
     strContains (lower ji.jobName) query ||
     strContains (lower ji.image) query
   | none => false)

/-- `MemberlistStore.GetAlerts` (lines 196-246): clamp the limit to
the stored count when non-positive or too large; with an empty query
return the first `limit` entries; with a query, lower it and collect
matches, stopping once `limit` results are gathered (the loop body
appends then breaks at the limit, which is `filter` then `take`). -/
def MemberlistStore.GetAlerts (s : MemberlistStore) (query : String) (limit : Int) :
    List AlertEntry :=
  let lim : Nat :=
    if limit ≤ 0 ∨ (s.alerts.length : Int) < limit then s.alerts.length
    else limit.toNat
  if query = "" then s.alerts.take lim
  else ((s.alerts.filter (fun e => mlAlertMatchesQuery e (lower query))).take lim)

/-- The duplicate-identity test used by `NotifyMsg` and
`MergeRemoteState`: equal timestamps, and both records carry an
`alertname` label with the same value. -/
def identMatch (existing entry : AlertEntry) : Bool :=
  existing.timestamp = entry.timestamp &&
    (match alookup "alertname" existing.alert.labels,
           alookup "alertname" entry.alert.labels with
     | some a, some b => a = b
     | _, _ => false)

/-- `delegate.NotifyMsg` (lines 306-360) after successful
deserialisation of a non-empty payload: drop the entry if some stored
record matches its identity, else prepend and trim. -/
def NotifyMsg (s : MemberlistStore) (entry : AlertEntry) : MemberlistStore :=
  if s.alerts.any (fun existing => identMatch existing entry) then s
  else s.insertFront entry

/-- The merge loop of `delegate.MergeRemoteState` (lines 427-445):
each remote entry is checked against the store list as it grows and
appended at the end when no identity match is found. -/
def mergeLoop (acc : List AlertEntry) : List AlertEntry → List AlertEntry
  | [] => acc
  | r :: rs =>
    if acc.any (fun localEntry => identMatch localEntry r) then mergeLoop acc rs
    else mergeLoop (acc ++ [r]) rs

/-- Comparator of the `sort.Slice` call in `MergeRemoteState`
(descending timestamps), relaxed from `After` (strict) to `≥` so that
it is total; `sort.Slice` is an unstable comparison sort, so any
order of equal timestamps is a faithful outcome. -/
def tsDesc (a b : AlertEntry) : Prop :=
  b.timestamp ≤ a.timestamp

instance : DecidableRel tsDesc := fun a b => Nat.decLe b.timestamp a.timestamp

/-- `delegate.MergeRemoteState` (lines 396-466) after successful
deserialisation: merge the remote entries (skipping identity
duplicates), sort everything by timestamp descending, trim to the
limit.  The unstable Go sort is modelled by insertion sort. -/
def MergeRemoteState (s : MemberlistStore) (remote : List AlertEntry) :
    MemberlistStore :=
  let merged := mergeLoop s.alerts remote
  let sorted := merged.insertionSort tsDesc
  { s with
    alerts := if sorted.length > s.limit then sorted.take s.limit else sorted }

/-! ## `pkg/kubernetes` — jobs and the existing-job index -/

/-- `batchv1.JobStatus` counters (`int32` in Go, hence `Int`). -/
structure JobStatus where
  active : Int
  succeeded : Int
  failed : Int
deriving DecidableEq, Repr

/-- A container of the job pod template: only the fields the
dispatcher touches (image, env). -/
structure Container where
  image : String
  env : List (String × String)
deriving DecidableEq, Repr

/-- `batchv1.Job`, restricted to the fields the repository reads or
writes.  `labels` is `Option` because a Go map can be `nil` and
`checkExistingJobByGroupKey` branches on that. -/
structure KJob where
  name : String
  labels : Option (List (String × String))
  ttlSecondsAfterFinished : Option Int
  containers : List Container
  status : JobStatus
deriving DecidableEq, Repr

/-- `services.checkExistingJobByGroupKey` (`part_006` lines 58-87):
hash the group key, scan the job-store list, and report true iff some
job carries the `openfero.io/group-key` label equal to that hash and
is active (`Active > 0`) or not yet resolved
(`Succeeded == 0 && Failed == 0`). -/
def checkExistingJobByGroupKey (jobs : List KJob) (groupKey : String) : Bool :=
  let hashedGroupKey := HashGroupKey groupKey
  jobs.any fun job =>
    match job.labels with
    | none => false
    | some lbls =>
      match alookup "openfero.io/group-key" lbls with
      | none => false
      | some jobGroupKey =>
        jobGroupKey = hashedGroupKey &&
          (job.status.active > 0 ||
            (job.status.succeeded == 0 && job.status.failed == 0))

/-- `kubernetes.AddLabelsAsEnvVars`: append one
`OPENFERO_<UPPER(label)>` env var per alert label to the first
container (Go would crash on an empty container list; the model
leaves an empty list unchanged). -/
def AddLabelsAsEnvVars (job : KJob) (alert : Alert) : KJob :=
  match job.containers with
  | [] => job
  | c :: cs =>
    { job with
      containers :=
        { c with
          env := c.env ++ alert.labels.map
            (fun kv => ("OPENFERO_" ++ (kv.1.data.map Char.toUpper).asString, kv.2)) } :: cs }

/-- `kubernetes.CheckJobTTL`. -/
def CheckJobTTL (job : KJob) : Bool :=
  job.ttlSecondsAfterFinished.isSome

/-- `kubernetes.AddJobTTL`: 300 seconds. -/
def AddJobTTL (job : KJob) : KJob :=
  { job with ttlSecondsAfterFinished := some 300 }

/-- `kubernetes.CheckJobLabels`: every selector match-label must be
present with the same value (a `nil` or missing entry reads as
`""`). -/
def CheckJobLabels (job : KJob) (labelSelector : List (String × String)) : Bool :=
  labelSelector.all fun kv => alookupD kv.1 (job.labels.getD []) = kv.2

/-- `kubernetes.AddJobLabels`: discard the previous label map and
install a fresh one holding exactly the selector match-labels. -/
def AddJobLabels (job : KJob) (labelSelector : List (String × String)) : KJob :=
  { job with labels := some labelSelector }

/-- Modelled from the spec: `kubernetes.AddGroupKeyLabel` is missing
from `src/` (only its tests and its call site in `CreateResponseJob`
are present).  Spec sections 3 and 4.4: "the hashed group-key label is
attached when a group key is present", the label key being
`openfero.io/group-key`; an empty group key attaches nothing, and a
`nil` label map is initialised first. -/
def AddGroupKeyLabel (job : KJob) (groupKey : String) : KJob :=
  if groupKey = "" then job
  else
    { job with
      labels := some (mapSet (job.labels.getD []) "openfero.io/group-key"
        (HashGroupKey groupKey)) }

/-- `kubernetes.GetJobFromConfigMap` (`jobs.go` lines 84-108): read
`configMap.Data[alertname]`; empty means not found; otherwise run the
external YAML-to-JSON-to-Job conversion (`parse`, an environment
parameter, `none` modelling either conversion error) and append the
random five-character suffix. -/
def GetJobFromConfigMap (cmData : List (String × String)) (alertname : String)
    (parse : String → Option KJob) (randomSuffix : String) : Option KJob :=
  let jobDefinition := alookupD alertname cmData
  if jobDefinition = "" then none
  else
    match parse jobDefinition with
    | none => none
    | some jobObject => some { jobObject with name := jobObject.name ++ "-" ++ randomSuffix }

/-! ## `pkg/services/alert.go` — the dispatcher -/

/-- Result of `client.ConfigMapStore.GetByKey`: the Go triple
`(obj, exists, err)` collapsed to its three reachable shapes. -/
inductive CMLookup where
  | lookupErr
  | absent
  | found (data : List (String × String))
deriving DecidableEq, Repr

/-- The external collaborators of one `CreateResponseJob` run: the
existing-job index snapshot, the configmap lookup outcome, the YAML
parser, the random suffix drawn, the selector, and the outcomes of the
job-store calls made by `CreateRemediationJob` (`jobs.go` lines
20-41): the `GetByKey` existence pre-check and the `Create` call. -/
structure DispatchEnv where
  jobs : List KJob
  cmLookup : CMLookup
  parse : String → Option KJob
  randomSuffix : String
  labelSelector : List (String × String)
  jobGetErr : Bool
  jobExists : Bool
  createErr : Bool

/-- A record appended to the alert store by a dispatch, as the store
receives it (`services.SaveAlert` passes no job info,
`services.SaveAlertWithJobInfo` passes some). -/
structure SaveRec where
  alert : Alert
  status : String
  jobInfo : Option JobInfo
deriving DecidableEq, Repr

/-- `kubernetes.CreateRemediationJob` observed abstractly: whether it
succeeds, and how many job-store `Create` calls it makes (the
existence pre-check failing or reporting a duplicate returns before
`Create`). -/
def CreateRemediationJob (env : DispatchEnv) : Bool × Nat :=
  if env.jobGetErr then (false, 0)
  else if env.jobExists then (false, 0)
  else if env.createErr then (false, 1)
  else (true, 1)

/-- `services.CreateResponseJob` (`part_006` lines 90-198), returning
the number of job-store `Create` calls made and the list of records
appended to the alert store, in order.  Every early return appends one
record without job info; the success path appends one record with
`{responsesConfigmap, job name, first-container image}`. -/
def CreateResponseJob (env : DispatchEnv) (alert : Alert) (status : String)
    (groupKey : String) : Nat × List SaveRec :=
  let alertname := SanitizeInput (alookupD "alertname" alert.labels)
  let responsesConfigmap := lower ("openfero-" ++ alertname ++ "-" ++ status)
  if groupKey ≠ "" ∧ checkExistingJobByGroupKey env.jobs groupKey then
    (0, [⟨alert, status, none⟩])
  else
    match env.cmLookup with
    | .lookupErr => (0, [⟨alert, status, none⟩])
    | .absent => (0, [⟨alert, status, none⟩])
    | .found cmData =>
      match GetJobFromConfigMap cmData alertname env.parse env.randomSuffix with
      | none => (0, [⟨alert, status, none⟩])
      | some jobObject =>
        let jobObject := AddLabelsAsEnvVars jobObject alert
        let jobObject := if CheckJobTTL jobObject then jobObject else AddJobTTL jobObject
        let jobObject :=
          if CheckJobLabels jobObject env.labelSelector then jobObject
          else AddJobLabels jobObject env.labelSelector
        let jobObject := AddGroupKeyLabel jobObject groupKey
        match CreateRemediationJob env with
        | (false, n) => (n, [⟨alert, status, none⟩])
        | (true, n) =>
          (n, [⟨alert, status,
            some ⟨responsesConfigmap, jobObject.name,
              ((jobObject.containers.headD ⟨"", []⟩).image)⟩⟩])

/-! ## Iterated saves and helper lemmas -/

/-- A sequence of save calls against the local store (each request
with `jobInfo = none` is a `SaveAlert` call, the others are
`SaveAlertWithJobInfo` calls; both run the same insertion step). -/
def MemoryStore.saveAll (s : MemoryStore) (reqs : List SaveReq) : MemoryStore :=
  reqs.foldl (fun st r => st.insertEntry r.entry) s

/-- A sequence of save calls against the replicated store. -/
def MemberlistStore.saveAll (s : MemberlistStore) (reqs : List SaveReq) : MemberlistStore :=
  reqs.foldl (fun st r => st.SaveAlertWithJobInfo r.alert r.status r.now r.jobInfo) s

/-- The last `n` elements of a list. -/
def lastN (n : Nat) (l : List α) : List α :=
  l.drop (l.length - n)

/-- The `(timestamp, alertname)` replica identity of the spec, as a
relation between records: equal timestamps and both records carrying
the same `alertname` label value. -/
def sameIdentity (a b : AlertEntry) : Prop :=
  a.timestamp = b.timestamp ∧
  ∃ name, alookup "alertname" a.alert.labels = some name ∧
    alookup "alertname" b.alert.labels = some name

/-- The condition under which one `CreateResponseJob` run submits its
job successfully: no dedup short-circuit, the configmap lookup finds
data from which a job template converts, and the job-store existence
pre-check and `Create` call all succeed. -/
def submissionSucceeded (env : DispatchEnv) (alert : Alert) (groupKey : String) : Prop :=
  ¬(groupKey ≠ "" ∧ checkExistingJobByGroupKey env.jobs groupKey = true) ∧
  (∃ cmData, env.cmLookup = .found cmData ∧
    (GetJobFromConfigMap cmData (SanitizeInput (alookupD "alertname" alert.labels))
      env.parse env.randomSuffix).isSome = true) ∧
  env.jobGetErr = false ∧ env.jobExists = false ∧ env.createErr = false

instance : IsTotal AlertEntry tsDesc :=
  ⟨fun a b => Or.symm (Nat.le_total a.timestamp b.timestamp)⟩

instance : IsTrans AlertEntry tsDesc :=
  ⟨fun _ _ _ hab hbc => Nat.le_trans hbc hab⟩

/-- Test fixture: an alert carrying only an `alertname` label. -/
def mkAlert (name : String) : Alert :=
  ⟨[("alertname", name)], [], "", ""⟩

/-- Test fixture: a job labelled with the hashed group key and the
given status counters. -/
def mkGroupJob (groupKey : String) (active succeeded failed : Int) : KJob :=
  ⟨"job-x", some [("openfero.io/group-key", HashGroupKey groupKey)], none, [],
    ⟨active, succeeded, failed⟩⟩

/-- Test fixture: a dispatch environment with an empty template store
and no failures. -/
def mkEnv (jobs : List KJob) : DispatchEnv :=
  ⟨jobs, .absent, fun _ => none, "abcde", [], false, false, false⟩

theorem lastN_length (n : Nat) (l : List α) : (lastN n l).length = min n l.length := by
  simp [lastN]
  omega

theorem lastN_of_le {n : Nat} {l : List α} (h : l.length ≤ n) : lastN n l = l := by
  unfold lastN
  have : l.length - n = 0 := by omega
  simp [this]

theorem lastN_cons {n : Nat} {l : List α} (x : α) (h : n ≤ l.length) :
    lastN n (x :: l) = lastN n l := by
  unfold lastN
  have : (x :: l).length - n = (l.length - n) + 1 := by simp; omega
  rw [this]
  rfl

/-- After any sequence of saves starting from a state within capacity,
the local store holds exactly the last `maxSize` entries of
"initial contents followed by the new entries in call order". -/
theorem mem_saveAll_alerts : ∀ (reqs : List SaveReq) (s : MemoryStore),
    1 ≤ s.maxSize → s.alerts.length ≤ s.maxSize →
    (s.saveAll reqs).alerts = lastN s.maxSize (s.alerts ++ reqs.map SaveReq.entry) ∧
    (s.saveAll reqs).maxSize = s.maxSize := by
  intro reqs
  induction reqs with
  | nil =>
    intro s _ hlen
    simpa [MemoryStore.saveAll] using (lastN_of_le hlen).symm
  | cons r reqs ih =>
    intro s hC hlen
    have hstep : MemoryStore.saveAll s (r :: reqs) =
        MemoryStore.saveAll (s.insertEntry r.entry) reqs := rfl
    by_cases hfull : s.alerts.length < s.maxSize
    · have hins : s.insertEntry r.entry =
          { s with alerts := s.alerts ++ [r.entry] } := by
        simp [MemoryStore.insertEntry, hfull]
      have h1 : (s.alerts ++ [r.entry]).length ≤ s.maxSize := by simp; omega
      have := ih { s with alerts := s.alerts ++ [r.entry] } hC h1
      rw [hstep, hins]
      simpa [List.append_assoc] using this
    · have heq : s.alerts.length = s.maxSize := by omega
      have hne : s.alerts ≠ [] := by
        intro hnil
        rw [hnil] at heq
        simp at heq
        omega
      obtain ⟨a, A, hA⟩ := List.exists_cons_of_ne_nil hne
      have hins : s.insertEntry r.entry =
          { s with alerts := s.alerts.tail ++ [r.entry] } := by
        simp [MemoryStore.insertEntry, hfull]
      have h1 : (s.alerts.tail ++ [r.entry]).length ≤ s.maxSize := by
        simp [hA] at heq ⊢
        omega
      have := ih { s with alerts := s.alerts.tail ++ [r.entry] } hC h1
      rw [hstep, hins]
      rcases this with ⟨hal, hmax⟩
      refine ⟨?_, hmax⟩
      rw [hal]
      have hlen2 : s.maxSize ≤ (A ++ (r.entry :: reqs.map SaveReq.entry)).length := by
        simp [hA] at heq ⊢
        omega
      calc lastN s.maxSize (s.alerts.tail ++ [r.entry] ++ reqs.map SaveReq.entry)
          = lastN s.maxSize (A ++ (r.entry :: reqs.map SaveReq.entry)) := by
            simp [hA, List.append_assoc]
        _ = lastN s.maxSize (a :: (A ++ (r.entry :: reqs.map SaveReq.entry))) :=
            (lastN_cons a hlen2).symm
        _ = lastN s.maxSize (s.alerts ++ (r.entry :: reqs.map SaveReq.entry)) := by
            simp [hA]

theorem take_append_take (X B : List α) (C : Nat) :
    (X ++ B.take C).take C = (X ++ B).take C := by
  rw [List.take_append_eq_append_take, List.take_append_eq_append_take, List.take_take]
  have : min (C - X.length) C = C - X.length := by omega
  rw [this]

/-- After any sequence of saves starting from a state within capacity,
the replicated store holds the first `limit` entries of "new entries
newest first, then the initial contents". -/
theorem ml_saveAll_alerts : ∀ (reqs : List SaveReq) (s : MemberlistStore),
    s.alerts.length ≤ s.limit →
    (s.saveAll reqs).alerts =
      ((reqs.map SaveReq.entry).reverse ++ s.alerts).take s.limit ∧
    (s.saveAll reqs).limit = s.limit := by
  intro reqs
  induction reqs with
  | nil =>
    intro s hlen
    simpa [MemberlistStore.saveAll] using (List.take_of_length_le hlen).symm
  | cons r reqs ih =>
    intro s hlen
    have hstep : MemberlistStore.saveAll s (r :: reqs) =
        MemberlistStore.saveAll (s.insertFront r.entry) reqs := rfl
    have hlim : (s.insertFront r.entry).limit = s.limit := rfl
    have hifr : (s.insertFront r.entry).alerts =
        if (r.entry :: s.alerts).length > s.limit then
          (r.entry :: s.alerts).take s.limit
        else (r.entry :: s.alerts) := rfl
    have hlen2 : (s.insertFront r.entry).alerts.length ≤ s.limit := by
      rw [hifr]
      split
      · simp
      · next h => simp at h ⊢; omega
    obtain ⟨hal, hml⟩ := ih (s.insertFront r.entry) (by rw [hlim]; exact hlen2)
    rw [hstep]
    constructor
    · rw [hal, hlim]
      have hgoal : (List.map SaveReq.entry (r :: reqs)).reverse ++ s.alerts
          = (List.map SaveReq.entry reqs).reverse ++ (r.entry :: s.alerts) := by
        simp [List.append_assoc]
      rw [hgoal, hifr]
      split
      · exact take_append_take _ _ _
      · rfl
    · rw [hml, hlim]

/-- The Boolean duplicate test of the Go code decides exactly the
`(timestamp, alertname)` identity relation of the spec. -/
theorem identMatch_iff (a b : AlertEntry) : identMatch a b = true ↔ sameIdentity a b := by
  unfold identMatch sameIdentity
  cases ha : alookup "alertname" a.alert.labels with
  | none => simp [ha]
  | some x =>
    cases hb : alookup "alertname" b.alert.labels with
    | none => simp [ha, hb]
    | some y =>
      simp [ha, hb]
      intro _
      exact eq_comm

/-! ## Claim theorems -/

/-- Claim C6: `HashGroupKey ""` is `""`; on non-empty input the hash
is deterministic, non-empty, begins with the non-digit character `g`,
and is at most 63 characters long. -/
theorem hashGroupKey_spec :
    HashGroupKey "" = "" ∧
    (∀ s t : String, s = t → HashGroupKey s = HashGroupKey t) ∧
    (∀ s : String, s ≠ "" →
      HashGroupKey s ≠ "" ∧
      (HashGroupKey s).data.head? = some 'g' ∧
      ('g'.isDigit = false) ∧
      (HashGroupKey s).length ≤ 63) := by
  refine ⟨rfl, fun s t h => by rw [h], fun s hs => ?_⟩
  have hrw : HashGroupKey s =
      String.mk (if ('g' :: toBase36 (fnv1a64 (strBytes s))).length > 63 then
        ('g' :: toBase36 (fnv1a64 (strBytes s))).take 63
      else ('g' :: toBase36 (fnv1a64 (strBytes s)))) := by
    rw [HashGroupKey, if_neg hs]
  set ds : List Char := toBase36 (fnv1a64 (strBytes s)) with hds
  rw [hrw]
  by_cases hlong : ('g' :: ds).length > 63
  · rw [if_pos hlong]
    refine ⟨?_, ?_, rfl, ?_⟩
    · intro h
      have := congrArg String.length h
      rw [show (String.mk (('g' :: ds).take 63)).length = (('g' :: ds).take 63).length
        from rfl] at this
      simp at this
    · rw [show ('g' :: ds).take 63 = 'g' :: ds.take 62 from rfl]
      rfl
    · rw [show (String.mk (('g' :: ds).take 63)).length = (('g' :: ds).take 63).length
        from rfl]
      simp
  · rw [if_neg hlong]
    refine ⟨?_, rfl, rfl, ?_⟩
    · intro h
      have := congrArg String.length h
      rw [show (String.mk ('g' :: ds)).length = ('g' :: ds).length from rfl] at this
      simp at this
    · rw [show (String.mk ('g' :: ds)).length = ('g' :: ds).length from rfl]
      omega

/-- Witness for C6 at the group key `test-group-123` (and the
determinism conjunct at a second concrete key). -/
theorem hashGroupKey_spec_witness :
    (HashGroupKey "alpha" = HashGroupKey "alpha") ∧
    (("test-group-123" : String) ≠ "" ∧
      (HashGroupKey "test-group-123" ≠ "" ∧
       (HashGroupKey "test-group-123").data.head? = some 'g' ∧
       ('g'.isDigit = false) ∧
       (HashGroupKey "test-group-123").length ≤ 63)) :=
  ⟨hashGroupKey_spec.2.1 "alpha" "alpha" rfl,
   by decide,
   hashGroupKey_spec.2.2 "test-group-123" (by decide)⟩

/-- Claim C9: on both backends, `SaveAlert alert status` behaves
exactly as `SaveAlertWithJobInfo alert status none`: same resulting
store state, a record with no job info (both operations always return
a `nil` error). -/
theorem saveAlert_equiv_saveAlertWithJobInfo (sm : MemoryStore) (sr : MemberlistStore)
    (alert : Alert) (status : String) (now : Nat) :
    sm.SaveAlert alert status now = sm.SaveAlertWithJobInfo alert status now none ∧
    sr.SaveAlert alert status now = sr.SaveAlertWithJobInfo alert status now none :=
  ⟨rfl, rfl⟩

/-- Claim C1: with a non-empty group key, if the existing-job index
holds a job labelled `openfero.io/group-key = HashGroupKey groupKey`
whose status is active (`Active > 0`) or unresolved
(`Succeeded = 0 ∧ Failed = 0`), then `CreateResponseJob` makes zero
job-store create calls and appends exactly one record without job
info; and if every job carrying that label has completed
(`Active = 0` and `Succeeded > 0 ∨ Failed > 0`), the dedup check does
not fire. -/
theorem dedup_dispatch_spec (env : DispatchEnv) (alert : Alert) (status : String)
    (groupKey : String) (hgk : groupKey ≠ "") :
    ((∃ job ∈ env.jobs, ∃ lbls, job.labels = some lbls ∧
        alookup "openfero.io/group-key" lbls = some (HashGroupKey groupKey) ∧
        (0 < job.status.active ∨ (job.status.succeeded = 0 ∧ job.status.failed = 0))) →
      CreateResponseJob env alert status groupKey = (0, [⟨alert, status, none⟩])) ∧
    ((∀ job ∈ env.jobs, ∀ lbls, job.labels = some lbls →
        alookup "openfero.io/group-key" lbls = some (HashGroupKey groupKey) →
        (job.status.active = 0 ∧ (0 < job.status.succeeded ∨ 0 < job.status.failed))) →
      checkExistingJobByGroupKey env.jobs groupKey = false) := by
  constructor
  · intro hhit
    have hchk : checkExistingJobByGroupKey env.jobs groupKey = true := by
      obtain ⟨job, hjob, lbls, hlb, hlk, hst⟩ := hhit
      unfold checkExistingJobByGroupKey
      rw [List.any_eq_true]
      refine ⟨job, hjob, ?_⟩
      rw [hlb]
      simp only [hlk]
      rcases hst with h | ⟨h1, h2⟩
      · simp [h]
      · simp [h1, h2]
    rw [CreateResponseJob, if_pos ⟨hgk, hchk⟩]
  · intro hall
    unfold checkExistingJobByGroupKey
    rw [List.any_eq_false]
    intro job hjob
    cases hlb : job.labels with
    | none => simp
    | some lbls =>
      simp only [hlb]
      cases hlk : alookup "openfero.io/group-key" lbls with
      | none => simp
      | some v =>
        by_cases hv : v = HashGroupKey groupKey
        · obtain ⟨h1, h2⟩ := hall job hjob lbls hlb (hv ▸ hlk)
          rcases h2 with h2 | h2 <;>
            simp [hv, h1] <;> omega
        · simp [hv]

/-- Witness for C1: a concrete active job with the hashed label
short-circuits the dispatch, and a concrete completed job does not. -/
theorem dedup_dispatch_spec_witness :
    (("grp-1" : String) ≠ "" ∧
      CreateResponseJob (mkEnv [mkGroupJob "grp-1" 1 0 0]) (mkAlert "A") "firing" "grp-1"
        = (0, [⟨mkAlert "A", "firing", none⟩])) ∧
    (("grp-2" : String) ≠ "" ∧
      checkExistingJobByGroupKey [mkGroupJob "grp-2" 0 1 0] "grp-2" = false) :=
  ⟨⟨by decide,
    (dedup_dispatch_spec (mkEnv [mkGroupJob "grp-1" 1 0 0]) (mkAlert "A") "firing" "grp-1"
        (by decide)).1
      ⟨mkGroupJob "grp-1" 1 0 0, by simp [mkEnv],
        [("openfero.io/group-key", HashGroupKey "grp-1")], rfl, by simp [alookup],
        Or.inl (by decide)⟩⟩,
   ⟨by decide,
    (dedup_dispatch_spec (mkEnv [mkGroupJob "grp-2" 0 1 0]) (mkAlert "A") "firing" "grp-2"
        (by decide)).2
      (by
        intro job hjob lbls hlb hlk
        simp [mkEnv, mkGroupJob] at hjob
        subst hjob
        simp [mkGroupJob] at hlb
        exact ⟨rfl, Or.inl (by decide)⟩)⟩⟩

/-- Claim C5: every terminating `CreateResponseJob` run (dedup skip,
configmap lookup error, configmap missing, template conversion
failure, submission failure, or success) appends exactly one record
to the alert store, and that record carries job info exactly when the
job submission succeeded. -/
theorem dispatch_records_once (env : DispatchEnv) (alert : Alert) (status groupKey : String) :
    ∃ ji : Option JobInfo,
      (CreateResponseJob env alert status groupKey).2 = [⟨alert, status, ji⟩] ∧
      (ji.isSome = true ↔ submissionSucceeded env alert groupKey) := by
  by_cases hd : groupKey ≠ "" ∧ checkExistingJobByGroupKey env.jobs groupKey = true
  · refine ⟨none, ?_, ?_⟩
    · rw [CreateResponseJob, if_pos hd]
    · simp only [Option.isSome_none]
      constructor
      · intro h
        simp at h
      · intro hsucc
        exact (hsucc.1 hd).elim
  · rw [CreateResponseJob, if_neg hd]
    split
    · next hcm =>
      refine ⟨none, rfl, ?_⟩
      simp only [Option.isSome_none]
      constructor
      · intro h
        simp at h
      · rintro ⟨-, ⟨d, hf, -⟩, -⟩
        rw [hcm] at hf
        cases hf
    · next hcm =>
      refine ⟨none, rfl, ?_⟩
      simp only [Option.isSome_none]
      constructor
      · intro h
        simp at h
      · rintro ⟨-, ⟨d, hf, -⟩, -⟩
        rw [hcm] at hf
        cases hf
    · next cmData hcm =>
      split
      · next hjob =>
        refine ⟨none, rfl, ?_⟩
        simp only [Option.isSome_none]
        constructor
        · intro h
          simp at h
        · rintro ⟨-, ⟨d, hf, hsome⟩, -⟩
          rw [hcm] at hf
          cases hf
          rw [hjob] at hsome
          simp at hsome
      · next jobObject hjob =>
        dsimp only
        split
        · next n hcr =>
          refine ⟨none, rfl, ?_⟩
          simp only [Option.isSome_none]
          constructor
          · intro h
            simp at h
          · rintro ⟨-, -, hge, hje, hce⟩
            rw [CreateRemediationJob, hge, hje, hce] at hcr
            simp at hcr
        · next n hcr =>
          refine ⟨some _, rfl, ?_⟩
          simp only [Option.isSome_some]
          constructor
          · intro _
            refine ⟨hd, ⟨cmData, hcm, by rw [hjob]; rfl⟩, ?_, ?_, ?_⟩ <;>
              · revert hcr
                rw [CreateRemediationJob]
                cases hge : env.jobGetErr <;> cases hje : env.jobExists <;>
                  cases hce : env.createErr <;> simp
          · intro _
            trivial

theorem lastN_min (C : Nat) (l : List α) : lastN C l = lastN (min C l.length) l := by
  unfold lastN
  congr 1
  omega

theorem lastN_lastN (m C : Nat) (l : List α) :
    lastN m (lastN C l) = lastN (min m (min C l.length)) l := by
  unfold lastN
  rw [List.drop_drop]
  congr 1
  simp [List.length_drop]
  omega

theorem newMemberlistStore_limit (C : Nat) (hC : 0 < C) :
    NewMemberlistStore (C : Int) = ⟨[], C⟩ := by
  unfold NewMemberlistStore
  have h1 : ¬((C : Int) ≤ 0) := by exact_mod_cast Nat.not_le.mpr hC
  rw [if_neg h1]
  simp

/-- Claim C2: starting empty with capacity `C > 0`, after any prefix
of a sequence of `C + k` (`k > 0`) saves both stores hold at most `C`
records, and after the full sequence each holds exactly the `C`
most-recent records: the local store keeps the last `C` in insertion
order (evicting index 0 on each overflowing insert), the replicated
store keeps the first `C` of the newest-first list (trimming its
tail). -/
theorem store_capacity_spec (C k i : Nat) (reqs : List SaveReq)
    (hC : 0 < C) (hlen : reqs.length = C + k) (hk : 0 < k) :
    ((NewMemoryStore C).saveAll (reqs.take i)).alerts.length ≤ C ∧
    ((NewMemberlistStore (C : Int)).saveAll (reqs.take i)).alerts.length ≤ C ∧
    ((NewMemoryStore C).saveAll reqs).alerts = lastN C (reqs.map SaveReq.entry) ∧
    ((NewMemoryStore C).saveAll reqs).alerts.length = C ∧
    ((NewMemberlistStore (C : Int)).saveAll reqs).alerts =
      ((reqs.map SaveReq.entry).reverse).take C ∧
    ((NewMemberlistStore (C : Int)).saveAll reqs).alerts.length = C := by
  rw [newMemberlistStore_limit C hC]
  unfold NewMemoryStore
  obtain ⟨hmi, -⟩ := mem_saveAll_alerts (reqs.take i) ⟨[], C⟩ hC (by simp)
  obtain ⟨hli, -⟩ := ml_saveAll_alerts (reqs.take i) ⟨[], C⟩ (by simp)
  obtain ⟨hm, -⟩ := mem_saveAll_alerts reqs ⟨[], C⟩ hC (by simp)
  obtain ⟨hl, -⟩ := ml_saveAll_alerts reqs ⟨[], C⟩ (by simp)
  refine ⟨?_, ?_, ?_, ?_, ?_, ?_⟩
  · rw [hmi]
    simp [lastN_length]
  · rw [hli]
    simp
  · rw [hm]
    simp
  · rw [hm]
    simp [lastN_length]
    omega
  · rw [hl]
    simp
  · rw [hl]
    simp
    omega

/-- Claim C3, amended: with an empty query both backends return the
`min(limit, stored count)` (for `limit > 0`, else all) most-recent
records; the replicated store returns them newest-first, but the
local store returns them in insertion order, oldest first (the claim
states newest-first for every backend; see the counterexample). -/
theorem getAlerts_empty_query_spec (C : Nat) (reqs : List SaveReq) (limit : Int)
    (hC : 0 < C) :
    ((NewMemoryStore C).saveAll reqs).GetAlerts "" limit =
      lastN (if 0 < limit then min limit.toNat (min C reqs.length) else min C reqs.length)
        (reqs.map SaveReq.entry) ∧
    ((NewMemberlistStore (C : Int)).saveAll reqs).GetAlerts "" limit =
      ((reqs.map SaveReq.entry).reverse).take
        (if 0 < limit then min limit.toNat (min C reqs.length) else min C reqs.length) := by
  rw [newMemberlistStore_limit C hC]
  unfold NewMemoryStore
  obtain ⟨hm, hmax⟩ := mem_saveAll_alerts reqs ⟨[], C⟩ hC (by simp)
  obtain ⟨hl, hlim⟩ := ml_saveAll_alerts reqs ⟨[], C⟩ (by simp)
  simp only [List.nil_append, List.append_nil] at hm hl
  constructor
  · unfold MemoryStore.GetAlerts
    rw [if_pos rfl]
    split
    · next hcond =>
      obtain ⟨hpos, hlt⟩ := hcond
      rw [hm]
      have hlen : (lastN C (reqs.map SaveReq.entry)).length = min C reqs.length := by
        simp [lastN_length]
      rw [hm, hlen] at hlt
      have hdrop : (lastN C (reqs.map SaveReq.entry)).drop
          ((lastN C (reqs.map SaveReq.entry)).length - limit.toNat) =
          lastN limit.toNat (lastN C (reqs.map SaveReq.entry)) := rfl
      rw [hdrop, lastN_lastN]
      rw [if_pos hpos]
      congr 1
      simp [lastN_length]
    · next hcond =>
      rw [hm]
      rw [hm] at hcond
      have hlen : (lastN C (reqs.map SaveReq.entry)).length = min C reqs.length := by
        simp [lastN_length]
      rw [hlen] at hcond
      rw [lastN_min C (reqs.map SaveReq.entry)]
      congr 1
      simp only [List.length_map]
      by_cases hpos : 0 < limit
      · rw [if_pos hpos]
        have := fun h => hcond ⟨hpos, h⟩
        omega
      · rw [if_neg hpos]
  · unfold MemberlistStore.GetAlerts
    rw [if_pos rfl, hl]
    rw [List.take_take]
    have hlen : ((reqs.map SaveReq.entry).reverse.take C).length = min C reqs.length := by
      simp
    rw [hlen]
    congr 1
    split
    · next hcond =>
      rcases hcond with hcond | hcond
      · rw [if_neg (by omega)]
        omega
      · have hpos : 0 < limit := by omega
        rw [if_pos hpos]
        omega
    · next hcond =>
      push_neg at hcond
      obtain ⟨h1, h2⟩ := hcond
      rw [if_pos (by omega)]
      omega

/-- Counterexample to claim C3 as stated: after saving `alert1` then
`alert2`, the local store returns them oldest-first, not newest-first
as the claim demands. -/
theorem getAlerts_newest_first_counterexample :
    ((NewMemoryStore 10).saveAll
        [⟨mkAlert "alert1", "firing", 0, none⟩, ⟨mkAlert "alert2", "firing", 1, none⟩]).GetAlerts "" 0
      = [⟨mkAlert "alert1", "firing", 0, none⟩, ⟨mkAlert "alert2", "firing", 1, none⟩] ∧
    ((NewMemoryStore 10).saveAll
        [⟨mkAlert "alert1", "firing", 0, none⟩, ⟨mkAlert "alert2", "firing", 1, none⟩]).GetAlerts "" 0
      ≠ [⟨mkAlert "alert2", "firing", 1, none⟩, ⟨mkAlert "alert1", "firing", 0, none⟩] := by
  decide

/-- Claim C4, exhibiting the code bug: on the exact data of the
repository test `memory_search_test.go`, the local store returns one
record for query `firing` where the test (and the spec) demand two;
the status `FIRING` is not matched because `alertMatchesQuery`
compares the stored status without lowering it.  The replicated
store, on the same data, returns the expected two records. -/
theorem memory_search_status_bug :
    (((NewMemoryStore 10).saveAll
        [⟨mkAlert "TestAlert1", "firing", 0, none⟩,
         ⟨mkAlert "TestAlert2", "resolved", 1, none⟩,
         ⟨mkAlert "AnotherAlert", "FIRING", 2, none⟩,
         ⟨mkAlert "YetAnotherAlert", "RESOLVED", 3, none⟩]).GetAlerts "firing" 100).length
      = 1 ∧
    (((NewMemberlistStore 10).saveAll
        [⟨mkAlert "TestAlert1", "firing", 0, none⟩,
         ⟨mkAlert "TestAlert2", "resolved", 1, none⟩,
         ⟨mkAlert "AnotherAlert", "FIRING", 2, none⟩,
         ⟨mkAlert "YetAnotherAlert", "RESOLVED", 3, none⟩]).GetAlerts "firing" 100).length
      = 2 := by
  decide

/-- Witness for C2 at capacity 1 with two saves. -/
theorem store_capacity_spec_witness :
    (0 < 1 ∧
      ([⟨mkAlert "a1", "firing", 0, none⟩,
        ⟨mkAlert "a2", "firing", 1, none⟩] : List SaveReq).length = 1 + 1 ∧ 0 < 1) ∧
    (((NewMemoryStore 1).saveAll
        ([⟨mkAlert "a1", "firing", 0, none⟩, ⟨mkAlert "a2", "firing", 1, none⟩].take 1)).alerts.length ≤ 1 ∧
     ((NewMemberlistStore ((1 : Nat) : Int)).saveAll
        ([⟨mkAlert "a1", "firing", 0, none⟩, ⟨mkAlert "a2", "firing", 1, none⟩].take 1)).alerts.length ≤ 1 ∧
     ((NewMemoryStore 1).saveAll
        [⟨mkAlert "a1", "firing", 0, none⟩, ⟨mkAlert "a2", "firing", 1, none⟩]).alerts =
        lastN 1 ([⟨mkAlert "a1", "firing", 0, none⟩,
          ⟨mkAlert "a2", "firing", 1, none⟩].map SaveReq.entry) ∧
     ((NewMemoryStore 1).saveAll
        [⟨mkAlert "a1", "firing", 0, none⟩, ⟨mkAlert "a2", "firing", 1, none⟩]).alerts.length = 1 ∧
     ((NewMemberlistStore ((1 : Nat) : Int)).saveAll
        [⟨mkAlert "a1", "firing", 0, none⟩, ⟨mkAlert "a2", "firing", 1, none⟩]).alerts =
        (([⟨mkAlert "a1", "firing", 0, none⟩,
          ⟨mkAlert "a2", "firing", 1, none⟩].map SaveReq.entry).reverse).take 1 ∧
     ((NewMemberlistStore ((1 : Nat) : Int)).saveAll
        [⟨mkAlert "a1", "firing", 0, none⟩, ⟨mkAlert "a2", "firing", 1, none⟩]).alerts.length = 1) :=
  ⟨⟨by decide, by decide, by decide⟩,
   store_capacity_spec 1 1 1
     [⟨mkAlert "a1", "firing", 0, none⟩, ⟨mkAlert "a2", "firing", 1, none⟩]
     (by decide) (by decide) (by decide)⟩

/-- Witness for C3 (amended) at capacity 2, two saves, limit 1. -/
theorem getAlerts_empty_query_spec_witness :
    (0 < 2) ∧
    (((NewMemoryStore 2).saveAll
        [⟨mkAlert "a1", "firing", 0, none⟩, ⟨mkAlert "a2", "firing", 1, none⟩]).GetAlerts "" 1 =
      lastN (if (0 : Int) < 1 then
          min (1 : Int).toNat (min 2 ([⟨mkAlert "a1", "firing", 0, none⟩,
            ⟨mkAlert "a2", "firing", 1, none⟩] : List SaveReq).length)
        else min 2 ([⟨mkAlert "a1", "firing", 0, none⟩,
            ⟨mkAlert "a2", "firing", 1, none⟩] : List SaveReq).length)
        ([⟨mkAlert "a1", "firing", 0, none⟩,
          ⟨mkAlert "a2", "firing", 1, none⟩].map SaveReq.entry) ∧
     ((NewMemberlistStore ((2 : Nat) : Int)).saveAll
        [⟨mkAlert "a1", "firing", 0, none⟩, ⟨mkAlert "a2", "firing", 1, none⟩]).GetAlerts "" 1 =
      (([⟨mkAlert "a1", "firing", 0, none⟩,
         ⟨mkAlert "a2", "firing", 1, none⟩].map SaveReq.entry).reverse).take
        (if (0 : Int) < 1 then
          min (1 : Int).toNat (min 2 ([⟨mkAlert "a1", "firing", 0, none⟩,
            ⟨mkAlert "a2", "firing", 1, none⟩] : List SaveReq).length)
        else min 2 ([⟨mkAlert "a1", "firing", 0, none⟩,
            ⟨mkAlert "a2", "firing", 1, none⟩] : List SaveReq).length)) :=
  ⟨by decide,
   getAlerts_empty_query_spec 2
     [⟨mkAlert "a1", "firing", 0, none⟩, ⟨mkAlert "a2", "firing", 1, none⟩] 1 (by decide)⟩

/-- Claim C7: on a peer broadcast the deserialised entry is dropped
exactly when some stored record shares its `(timestamp, alertname)`
identity (the Boolean test of the code deciding that identity);
otherwise it is prepended at the front and the list is trimmed to
capacity, so delivery never stores the same identity twice. -/
theorem notifyMsg_spec (s : MemberlistStore) (entry : AlertEntry) (hlim : 0 < s.limit) :
    ((s.alerts.any (fun e => identMatch e entry) = true) ↔
        ∃ e ∈ s.alerts, sameIdentity e entry) ∧
    (s.alerts.any (fun e => identMatch e entry) = true → NotifyMsg s entry = s) ∧
    (s.alerts.any (fun e => identMatch e entry) = false →
      (NotifyMsg s entry).alerts = (entry :: s.alerts).take s.limit ∧
      (NotifyMsg s entry).alerts.head? = some entry) ∧
    (NotifyMsg s entry).alerts.countP (fun e => identMatch e entry) ≤
      max (s.alerts.countP (fun e => identMatch e entry)) 1 := by
  have hiff : (s.alerts.any (fun e => identMatch e entry) = true) ↔
      ∃ e ∈ s.alerts, sameIdentity e entry := by
    rw [List.any_eq_true]
    constructor
    · rintro ⟨e, he, hm⟩
      exact ⟨e, he, (identMatch_iff e entry).1 hm⟩
    · rintro ⟨e, he, hm⟩
      exact ⟨e, he, (identMatch_iff e entry).2 hm⟩
  have hpos : s.alerts.any (fun e => identMatch e entry) = true → NotifyMsg s entry = s := by
    intro h
    rw [NotifyMsg, if_pos h]
  have hneg : s.alerts.any (fun e => identMatch e entry) = false →
      (NotifyMsg s entry).alerts = (entry :: s.alerts).take s.limit := by
    intro h
    rw [NotifyMsg, if_neg (by simp [h])]
    show (if (entry :: s.alerts).length > s.limit then
        (entry :: s.alerts).take s.limit else (entry :: s.alerts)) = _
    split
    · rfl
    · next hle => exact (List.take_of_length_le (by omega)).symm
  refine ⟨hiff, hpos, fun h => ⟨hneg h, ?_⟩, ?_⟩
  · rw [hneg h]
    obtain ⟨m, hm⟩ : ∃ m, s.limit = m + 1 := ⟨s.limit - 1, by omega⟩
    rw [hm]
    rfl
  · cases hany : s.alerts.any (fun e => identMatch e entry) with
    | true =>
      rw [hpos hany]
      exact le_max_left _ _
    | false =>
      rw [hneg hany]
      have h0 : s.alerts.countP (fun e => identMatch e entry) = 0 := by
        rw [List.countP_eq_zero]
        intro a ha
        have := List.any_eq_false.mp hany a ha
        simp at this ⊢
        exact this
      calc ((entry :: s.alerts).take s.limit).countP (fun e => identMatch e entry)
          ≤ (entry :: s.alerts).countP (fun e => identMatch e entry) :=
            List.Sublist.countP_le _ (List.take_sublist _ _)
        _ ≤ s.alerts.countP (fun e => identMatch e entry) + 1 := by
            rw [List.countP_cons]
            split <;> omega
        _ ≤ max (s.alerts.countP (fun e => identMatch e entry)) 1 := by
            rw [h0]
            simp

/-- Two records matching the same identity match each other. -/
theorem identMatch_trans (e r entry : AlertEntry) (h1 : identMatch e entry = true)
    (h2 : identMatch r entry = true) : identMatch e r = true := by
  rw [identMatch_iff] at h1 h2 ⊢
  obtain ⟨ht1, n1, ha1, hb1⟩ := h1
  obtain ⟨ht2, n2, ha2, hb2⟩ := h2
  rw [hb2] at hb1
  cases hb1
  exact ⟨ht1.trans ht2.symm, n1, ha1, ha2⟩

/-- The merge loop never raises the count of a given identity above
`max(initial count, 1)`: remote duplicates of a local record are
skipped, and repeated remote entries of one identity are deduplicated
against the growing list. -/
theorem mergeLoop_countP (entry : AlertEntry) : ∀ (remote acc : List AlertEntry),
    (mergeLoop acc remote).countP (fun e => identMatch e entry) ≤
      max (acc.countP (fun e => identMatch e entry)) 1 := by
  intro remote
  induction remote with
  | nil =>
    intro acc
    exact le_max_left _ _
  | cons r rs ih =>
    intro acc
    show (if acc.any (fun localEntry => identMatch localEntry r) then mergeLoop acc rs
        else mergeLoop (acc ++ [r]) rs).countP (fun e => identMatch e entry) ≤ _
    split
    · exact ih acc
    · next hfound =>
      have hbound := ih (acc ++ [r])
      rw [List.countP_append] at hbound
      by_cases hr : identMatch r entry = true
      · have h0 : acc.countP (fun e => identMatch e entry) = 0 := by
          rw [List.countP_eq_zero]
          intro a ha hae
          have : identMatch a r = true := identMatch_trans a r entry (by simpa using hae) hr
          have hnone := List.any_eq_false.mp (by simpa using hfound) a ha
          simp [this] at hnone
        rw [h0] at hbound ⊢
        simp [hr] at hbound
        simp
        omega
      · have h1 : ([r].countP (fun e => identMatch e entry)) = 0 := by
          simp [List.countP_cons, hr]
        rw [h1] at hbound
        simpa using hbound

/-- The merge loop fabricates no records. -/
theorem mergeLoop_mem : ∀ (remote acc : List AlertEntry) (a : AlertEntry),
    a ∈ mergeLoop acc remote → a ∈ acc ∨ a ∈ remote := by
  intro remote
  induction remote with
  | nil =>
    intro acc a ha
    exact Or.inl ha
  | cons r rs ih =>
    intro acc a ha
    rw [show mergeLoop acc (r :: rs) =
        (if acc.any (fun localEntry => identMatch localEntry r) then mergeLoop acc rs
         else mergeLoop (acc ++ [r]) rs) from rfl] at ha
    revert ha
    split
    · intro ha
      rcases ih acc a ha with h | h
      · exact Or.inl h
      · exact Or.inr (List.mem_cons_of_mem r h)
    · intro ha
      rcases ih (acc ++ [r]) a ha with h | h
      · rcases List.mem_append.mp h with h | h
        · exact Or.inl h
        · simp at h
          exact Or.inr (by simp [h])
      · exact Or.inr (List.mem_cons_of_mem r h)

/-- Claim C8: after merging a remote snapshot the record list is
sorted by timestamp descending, trimmed to capacity, contains no
record that was in neither the local list nor the snapshot, and holds
any identity already present locally (for example one received by
broadcast) at most `max(previous count, 1)` times — so a record
received both by broadcast and by snapshot merge appears at most
once. -/
theorem mergeRemoteState_spec (s : MemberlistStore) (remote : List AlertEntry)
    (entry : AlertEntry) :
    (MergeRemoteState s remote).alerts.Pairwise tsDesc ∧
    (MergeRemoteState s remote).alerts.length ≤ s.limit ∧
    ((MergeRemoteState s remote).alerts.countP (fun e => identMatch e entry) ≤
      max (s.alerts.countP (fun e => identMatch e entry)) 1) ∧
    (∀ a ∈ (MergeRemoteState s remote).alerts, a ∈ s.alerts ∨ a ∈ remote) := by
  have halerts : (MergeRemoteState s remote).alerts =
      (if ((mergeLoop s.alerts remote).insertionSort tsDesc).length > s.limit then
        ((mergeLoop s.alerts remote).insertionSort tsDesc).take s.limit
      else (mergeLoop s.alerts remote).insertionSort tsDesc) := rfl
  have hsorted : ((mergeLoop s.alerts remote).insertionSort tsDesc).Pairwise tsDesc :=
    List.sorted_insertionSort tsDesc (mergeLoop s.alerts remote)
  have hperm : List.Perm ((mergeLoop s.alerts remote).insertionSort tsDesc)
      (mergeLoop s.alerts remote) :=
    List.perm_insertionSort tsDesc (mergeLoop s.alerts remote)
  have hsub : List.Sublist (MergeRemoteState s remote).alerts
      ((mergeLoop s.alerts remote).insertionSort tsDesc) := by
    rw [halerts]
    split
    · exact List.take_sublist _ _
    · exact List.Sublist.refl _
  refine ⟨?_, ?_, ?_, ?_⟩
  · exact hsorted.sublist hsub
  · rw [halerts]
    split
    · next hbig => simp
    · next hbig => omega
  · calc (MergeRemoteState s remote).alerts.countP (fun e => identMatch e entry)
        ≤ ((mergeLoop s.alerts remote).insertionSort tsDesc).countP
            (fun e => identMatch e entry) := List.Sublist.countP_le _ hsub
      _ = (mergeLoop s.alerts remote).countP (fun e => identMatch e entry) :=
          hperm.countP_eq _
      _ ≤ max (s.alerts.countP (fun e => identMatch e entry)) 1 :=
          mergeLoop_countP entry remote s.alerts
  · intro a ha
    have : a ∈ mergeLoop s.alerts remote := (hperm.mem_iff).mp (hsub.mem ha)
    exact mergeLoop_mem remote s.alerts a this

theorem alookup_filter_ne (key k : String) (l : List (String × String)) (hk : k ≠ key) :
    alookup k (l.filter fun kv => !(kv.1 = key)) = alookup k l := by
  induction l with
  | nil => rfl
  | cons kv rest ih =>
    by_cases h1 : kv.1 = key
    · rw [show (kv :: rest).filter (fun kv => !(kv.1 = key)) =
          rest.filter (fun kv => !(kv.1 = key)) by simp [List.filter, h1]]
      rw [ih]
      rw [show alookup k (kv :: rest) = alookup k rest by
        rw [show (kv :: rest) = ((kv.1, kv.2) :: rest) by rfl, alookup]
        rw [if_neg (by rw [h1]; exact fun he => hk he.symm)]]
    · rw [show (kv :: rest).filter (fun kv => !(kv.1 = key)) =
          kv :: rest.filter (fun kv => !(kv.1 = key)) by simp [List.filter, h1]]
      rw [show (kv :: rest.filter (fun kv => !(kv.1 = key))) =
          ((kv.1, kv.2) :: rest.filter (fun kv => !(kv.1 = key))) by rfl]
      rw [show (kv :: rest) = ((kv.1, kv.2) :: rest) by rfl]
      rw [alookup, alookup]
      split
      · rfl
      · exact ih

theorem alookup_mapSet (l : List (String × String)) (key v k : String) :
    alookup k (mapSet l key v) = if k = key then some v else alookup k l := by
  unfold mapSet
  by_cases hk : k = key
  · subst hk
    rw [if_pos rfl]
    rw [alookup, if_pos rfl]
  · rw [if_neg hk]
    rw [alookup, if_neg (fun he => hk he.symm)]
    exact alookup_filter_ne key k l hk

/-- Claim C10: when a job's labels do not match the selector,
`AddJobLabels` replaces the entire label map with exactly the
selector match-labels, discarding every previous label; the group-key
label attached afterwards by `AddGroupKeyLabel` is the only addition
that survives beside them. -/
theorem addJobLabels_replaces (job : KJob) (sel : List (String × String))
    (groupKey k : String) (_h : CheckJobLabels job sel = false) :
    ((AddJobLabels job sel).labels = some sel) ∧
    (groupKey = "" → (AddGroupKeyLabel (AddJobLabels job sel) groupKey).labels = some sel) ∧
    (groupKey ≠ "" →
      alookup k ((AddGroupKeyLabel (AddJobLabels job sel) groupKey).labels.getD []) =
        if k = "openfero.io/group-key" then some (HashGroupKey groupKey)
        else alookup k sel) := by
  refine ⟨rfl, ?_, ?_⟩
  · intro hgk
    rw [AddGroupKeyLabel, if_pos hgk]
    rfl
  · intro hgk
    rw [AddGroupKeyLabel, if_neg hgk]
    show alookup k (mapSet sel "openfero.io/group-key" (HashGroupKey groupKey)) = _
    exact alookup_mapSet sel _ _ k

/-- Witness for C10: a job carrying labels `team` and `app=other`
loses both; afterwards only the selector label and the group-key
label are visible. -/
theorem addJobLabels_replaces_witness :
    (CheckJobLabels ⟨"j", some [("team", "a"), ("app", "other")], none, [], ⟨0, 0, 0⟩⟩
        [("app", "openfero")] = false) ∧
    ((AddJobLabels ⟨"j", some [("team", "a"), ("app", "other")], none, [], ⟨0, 0, 0⟩⟩
        [("app", "openfero")]).labels = some [("app", "openfero")] ∧
     (("grp" : String) = "" →
       (AddGroupKeyLabel (AddJobLabels
           ⟨"j", some [("team", "a"), ("app", "other")], none, [], ⟨0, 0, 0⟩⟩
           [("app", "openfero")]) "grp").labels = some [("app", "openfero")]) ∧
     (("grp" : String) ≠ "" →
       alookup "team" ((AddGroupKeyLabel (AddJobLabels
           ⟨"j", some [("team", "a"), ("app", "other")], none, [], ⟨0, 0, 0⟩⟩
           [("app", "openfero")]) "grp").labels.getD []) =
         if ("team" : String) = "openfero.io/group-key" then some (HashGroupKey "grp")
         else alookup "team" [("app", "openfero")])) :=
  ⟨by decide,
   addJobLabels_replaces ⟨"j", some [("team", "a"), ("app", "other")], none, [], ⟨0, 0, 0⟩⟩
     [("app", "openfero")] "grp" "team" (by decide)⟩

/-- Witness for C7: a fresh entry is prepended into a store of
capacity 2, and an entry duplicating the stored
`(timestamp, alertname)` identity is dropped. -/
theorem notifyMsg_spec_witness :
    (0 < (2 : Nat)) ∧
    ((([⟨mkAlert "x", "firing", 5, none⟩] : List AlertEntry).any
          (fun e => identMatch e ⟨mkAlert "y", "firing", 6, none⟩) = true) ↔
        ∃ e ∈ ([⟨mkAlert "x", "firing", 5, none⟩] : List AlertEntry),
          sameIdentity e ⟨mkAlert "y", "firing", 6, none⟩) ∧
    (([⟨mkAlert "x", "firing", 5, none⟩] : List AlertEntry).any
        (fun e => identMatch e ⟨mkAlert "y", "firing", 6, none⟩) = true →
      NotifyMsg ⟨[⟨mkAlert "x", "firing", 5, none⟩], 2⟩ ⟨mkAlert "y", "firing", 6, none⟩ =
        ⟨[⟨mkAlert "x", "firing", 5, none⟩], 2⟩) ∧
    (([⟨mkAlert "x", "firing", 5, none⟩] : List AlertEntry).any
        (fun e => identMatch e ⟨mkAlert "y", "firing", 6, none⟩) = false →
      (NotifyMsg ⟨[⟨mkAlert "x", "firing", 5, none⟩], 2⟩
          ⟨mkAlert "y", "firing", 6, none⟩).alerts =
        (⟨mkAlert "y", "firing", 6, none⟩ :: [⟨mkAlert "x", "firing", 5, none⟩]).take 2 ∧
      (NotifyMsg ⟨[⟨mkAlert "x", "firing", 5, none⟩], 2⟩
          ⟨mkAlert "y", "firing", 6, none⟩).alerts.head? =
        some ⟨mkAlert "y", "firing", 6, none⟩) ∧
    ((NotifyMsg ⟨[⟨mkAlert "x", "firing", 5, none⟩], 2⟩
        ⟨mkAlert "y", "firing", 6, none⟩).alerts.countP
          (fun e => identMatch e ⟨mkAlert "y", "firing", 6, none⟩) ≤
      max (([⟨mkAlert "x", "firing", 5, none⟩] : List AlertEntry).countP
          (fun e => identMatch e ⟨mkAlert "y", "firing", 6, none⟩)) 1) ∧
    (NotifyMsg ⟨[⟨mkAlert "x", "firing", 5, none⟩], 2⟩ ⟨mkAlert "x", "resolved", 5, none⟩ =
      ⟨[⟨mkAlert "x", "firing", 5, none⟩], 2⟩) :=
  ⟨by decide,
   (notifyMsg_spec ⟨[⟨mkAlert "x", "firing", 5, none⟩], 2⟩
       ⟨mkAlert "y", "firing", 6, none⟩ (by decide)).1,
   (notifyMsg_spec ⟨[⟨mkAlert "x", "firing", 5, none⟩], 2⟩
       ⟨mkAlert "y", "firing", 6, none⟩ (by decide)).2.1,
   (notifyMsg_spec ⟨[⟨mkAlert "x", "firing", 5, none⟩], 2⟩
       ⟨mkAlert "y", "firing", 6, none⟩ (by decide)).2.2.1,
   (notifyMsg_spec ⟨[⟨mkAlert "x", "firing", 5, none⟩], 2⟩
       ⟨mkAlert "y", "firing", 6, none⟩ (by decide)).2.2.2,
   (notifyMsg_spec ⟨[⟨mkAlert "x", "firing", 5, none⟩], 2⟩
       ⟨mkAlert "x", "resolved", 5, none⟩ (by decide)).2.1 (by decide)⟩

/-- Witness for C8: merging a snapshot holding one fresh record and
one identity-duplicate of the stored record into a store of capacity
2 keeps the list sorted, within capacity, without duplicating the
stored identity, and the fresh record comes from the snapshot. -/
theorem mergeRemoteState_spec_witness :
    (MergeRemoteState ⟨[⟨mkAlert "x", "firing", 5, none⟩], 2⟩
        [⟨mkAlert "y", "firing", 7, none⟩,
         ⟨mkAlert "x", "resolved", 5, none⟩]).alerts.Pairwise tsDesc ∧
    (MergeRemoteState ⟨[⟨mkAlert "x", "firing", 5, none⟩], 2⟩
        [⟨mkAlert "y", "firing", 7, none⟩,
         ⟨mkAlert "x", "resolved", 5, none⟩]).alerts.length ≤ 2 ∧
    ((MergeRemoteState ⟨[⟨mkAlert "x", "firing", 5, none⟩], 2⟩
        [⟨mkAlert "y", "firing", 7, none⟩,
         ⟨mkAlert "x", "resolved", 5, none⟩]).alerts.countP
          (fun e => identMatch e ⟨mkAlert "x", "firing", 5, none⟩) ≤
      max (([⟨mkAlert "x", "firing", 5, none⟩] : List AlertEntry).countP
          (fun e => identMatch e ⟨mkAlert "x", "firing", 5, none⟩)) 1) ∧
    (⟨mkAlert "y", "firing", 7, none⟩ ∈
        ([⟨mkAlert "x", "firing", 5, none⟩] : List AlertEntry) ∨
      (⟨mkAlert "y", "firing", 7, none⟩ : AlertEntry) ∈
        [⟨mkAlert "y", "firing", 7, none⟩, ⟨mkAlert "x", "resolved", 5, none⟩]) :=
  ⟨(mergeRemoteState_spec ⟨[⟨mkAlert "x", "firing", 5, none⟩], 2⟩
      [⟨mkAlert "y", "firing", 7, none⟩, ⟨mkAlert "x", "resolved", 5, none⟩]
      ⟨mkAlert "x", "firing", 5, none⟩).1,
   (mergeRemoteState_spec ⟨[⟨mkAlert "x", "firing", 5, none⟩], 2⟩
      [⟨mkAlert "y", "firing", 7, none⟩, ⟨mkAlert "x", "resolved", 5, none⟩]
      ⟨mkAlert "x", "firing", 5, none⟩).2.1,
   (mergeRemoteState_spec ⟨[⟨mkAlert "x", "firing", 5, none⟩], 2⟩
      [⟨mkAlert "y", "firing", 7, none⟩, ⟨mkAlert "x", "resolved", 5, none⟩]
      ⟨mkAlert "x", "firing", 5, none⟩).2.2.1,
   (mergeRemoteState_spec ⟨[⟨mkAlert "x", "firing", 5, none⟩], 2⟩
      [⟨mkAlert "y", "firing", 7, none⟩, ⟨mkAlert "x", "resolved", 5, none⟩]
      ⟨mkAlert "x", "firing", 5, none⟩).2.2.2
     ⟨mkAlert "y", "firing", 7, none⟩ (by decide)⟩

end OpenFero
